import Mathlib

/-!
Verification development for the witr process-facts acquisition engine.

The Go sources are shallow-embedded here:
* Go string helpers (strings.Fields, strings.Lines, strings.TrimSpace,
  strings.Contains, strings.ToLower, strconv.ParseUint, strconv.Atoi, ...)
  are re-implemented as structurally recursive functions over `List Char`,
  so that every definition is kernel-reducible.
* Stateful OS interaction is modelled by explicit oracle records
  (`DarwinOS` for the shelled-out utilities, `WinAPI` for the Win32 calls,
  `FileSys` for the filesystem walked by the git detector): each oracle
  field records the outcome the corresponding external call would produce.
* The Windows acquisition additionally returns the list of privilege tiers
  it attempted (with each tier's outcome), so that temporal claims about
  tier degradation can be stated.
-/

namespace Witr

/-! ## Go string primitives -/

/-- ASCII fragment of Go's `unicode.IsSpace`, which is what
`strings.Fields` and `strings.TrimSpace` split/trim on. -/
def goIsSpace (c : Char) : Bool :=
  c = ' ' || c = '\t' || c = '\n' || c = '\r' || c = '\x0b' || c = '\x0c'

/-- Model of Go `strings.TrimSpace` on the character list. -/
def trimL (l : List Char) : List Char :=
  ((l.dropWhile goIsSpace).reverse.dropWhile goIsSpace).reverse

/-- Model of Go `strings.TrimSpace`. -/
def goTrim (s : String) : String := ⟨trimL s.data⟩

/-- Accumulator loop behind `goFields`: splits on whitespace, dropping
empty fields, exactly like Go `strings.Fields`. -/
def fieldsAux : List Char → List Char → List (List Char)
  | [], cur => if cur.isEmpty then [] else [cur.reverse]
  | c :: rest, cur =>
    if goIsSpace c then
      if cur.isEmpty then fieldsAux rest [] else cur.reverse :: fieldsAux rest []
    else fieldsAux rest (c :: cur)

/-- Model of Go `strings.Fields`. -/
def goFields (s : String) : List String := (fieldsAux s.data []).map fun l => ⟨l⟩

/-- Accumulator loop splitting a character list at every character
satisfying `sep` (empty pieces kept). -/
def splitPredAux (sep : Char → Bool) : List Char → List Char → List (List Char)
  | [], cur => [cur.reverse]
  | c :: rest, cur =>
    if sep c then cur.reverse :: splitPredAux sep rest []
    else splitPredAux sep rest (c :: cur)

/-- Model of Go `strings.Split(s, sep)` for a one-character separator. -/
def goSplitChar (sep : Char) (s : String) : List String :=
  (splitPredAux (fun c => c = sep) s.data []).map fun l => ⟨l⟩

/-- Model of Go 1.24 `strings.Lines`.  Go yields each line with its
trailing newline attached; every consumer in the source immediately
`TrimSpace`s the line (or does a substring test that a trailing newline
cannot affect), so splitting at the newline is an equivalent embedding.
The final empty piece produced by a trailing newline is blank and is
skipped by every consumer, exactly as Go's iterator simply not yielding
it. -/
def goLines (s : String) : List String := goSplitChar '\n' s

/-- Model of Go `strings.Contains` (substring test) on character lists. -/
def containsL : List Char → List Char → Bool
  | [], sub => sub.isEmpty
  | c :: rest, sub => sub.isPrefixOf (c :: rest) || containsL rest sub

/-- Model of Go `strings.Contains`. -/
def goContains (s sub : String) : Bool := containsL s.data sub.data

/-- Model of Go `strings.HasPrefix`. -/
def goStartsWith (s p : String) : Bool := p.data.isPrefixOf s.data

/-- Model of Go `strings.ToLower` (ASCII; all markers matched in the
source are ASCII). -/
def goToLower (s : String) : String := ⟨s.data.map Char.toLower⟩

/-- Model of Go `strings.EqualFold` (ASCII case folding). -/
def goEqualFold (a b : String) : Bool := goToLower a == goToLower b

/-- Decimal-digit accumulator shared by the numeric parsers. -/
def digitsAux : List Char → Nat → Option Nat
  | [], acc => some acc
  | c :: rest, acc =>
    if c.isDigit then digitsAux rest (acc * 10 + (c.toNat - 48)) else none

/-- Model of Go `strconv.ParseUint(s, 10, 64)`: digits only, non-empty,
must fit in 64 bits. -/
def goParseUint64 (s : String) : Option Nat :=
  match s.data with
  | [] => none
  | l =>
    match digitsAux l 0 with
    | some n => if n < 2 ^ 64 then some n else none
    | none => none

/-- Model of Go `strconv.Atoi` on a 64-bit platform: optional sign,
digits, non-empty, must fit in a signed 64-bit int. -/
def goAtoi (s : String) : Option Int :=
  match s.data with
  | [] => none
  | '+' :: rest =>
    match rest, digitsAux rest 0 with
    | [], _ => none
    | _, some n => if n ≤ 2 ^ 63 - 1 then some (n : Int) else none
    | _, none => none
  | '-' :: rest =>
    match rest, digitsAux rest 0 with
    | [], _ => none
    | _, some n => if n ≤ 2 ^ 63 then some (-(n : Int)) else none
    | _, none => none
  | l =>
    match digitsAux l 0 with
    | some n => if n ≤ 2 ^ 63 - 1 then some (n : Int) else none
    | none => none

/-- Model of Go `strings.Join(parts, " ")` on character lists. -/
def joinSpaceL : List (List Char) → List Char
  | [] => []
  | [x] => x
  | x :: y :: rest => x ++ ' ' :: joinSpaceL (y :: rest)

/-- Model of Go `strings.Join(parts, " ")`. -/
def goJoinSpace (l : List String) : String := ⟨joinSpaceL (l.map String.data)⟩

/-- Model of the `%-4s` verb of `fmt.Sprintf`: left-justify in a
minimum-width-4 column, padding with spaces on the right. -/
def padRight4 (s : String) : String :=
  ⟨s.data ++ List.replicate (4 - s.data.length) ' '⟩

/-- Model of Go `path/filepath.Base` for Windows paths: the last
non-empty separator-delimited element; `"."` for the empty path; a
separator for a path made only of separators. -/
def goWindowsBase (p : String) : String :=
  if p.data.isEmpty then "."
  else
    match ((splitPredAux (fun c => c = '\\' || c = '/') p.data []).filter
        fun l => !l.isEmpty).getLast? with
    | some b => ⟨b⟩
    | none => "\\"

/-! ## Data model (pkg/model fragments used by the embedded functions) -/

/-- Memory facts.  `RSSMB`/`VMSMB` are `float64` in Go; they are modelled
as exact rationals, which agrees with the float on everything the claims
touch (in particular the zero value). -/
structure MemoryInfo where
  RSS : Nat := 0
  RSSMB : Rat := 0
  VMS : Nat := 0
  VMSMB : Rat := 0
deriving DecidableEq

/-- The darwin backend always leaves `model.IOStats` at its zero value,
and no claim looks inside it, so it is modelled as a fieldless record. -/
structure IOStats

instance : DecidableEq IOStats := fun _ _ => isTrue rfl

/-! ## Darwin backend (ReadExtendedInfo and helpers) -/

/-- Oracle of the external-tool invocations the darwin backend performs.
Each field is the outcome of the corresponding call: `none` (or
`Except.error` with the exit code for pgrep's `CombinedOutput`) models a
failed invocation, `some`/`ok` carries the tool's output. -/
structure DarwinOS where
  psOut : Option String
  lsofOut : Option String
  launchctlOut : Option String
  ulimitOut : Option String
  pgrepOut : Except Nat String

/-- Result triple of `readDarwinMemory` (Go returns
`(model.MemoryInfo, int, error)`). -/
structure MemResult where
  memInfo : MemoryInfo
  threadCount : Int
  err : Option String
deriving DecidableEq

/-- Embedding of `readDarwinMemory`: parse `ps -o rss=,vsz=,thcount=`
output.  Fewer than 3 whitespace-separated fields is a parse error that
leaves the memory info at its zero value. -/
def readDarwinMemory (os : DarwinOS) : MemResult :=
  match os.psOut with
  | none => { memInfo := {}, threadCount := 0, err := some "ps rss/vsz: exec failed" }
  | some out =>
    let fields := goFields (goTrim out)
    if fields.length < 3 then
      { memInfo := {}, threadCount := 0,
        err := some ("ps rss/vsz output missing fields: " ++ goTrim out) }
    else
      let mi0 : MemoryInfo := {}
      let mi1 := match goParseUint64 (fields.getD 0 "") with
        | some rss =>
          { mi0 with RSS := rss * 1024, RSSMB := ((rss * 1024 : Nat) : Rat) / (1024 * 1024) }
        | none => mi0
      let mi2 := match goParseUint64 (fields.getD 1 "") with
        | some vms =>
          { mi1 with VMS := vms * 1024, VMSMB := ((vms * 1024 : Nat) : Rat) / (1024 * 1024) }
        | none => mi1
      let tc := (goAtoi (fields.getD 2 "")).getD 0
      { memInfo := mi2, threadCount := tc, err := none }

/-- Embedding of `summarizeLsofLine`: an lsof row with at least 9
whitespace-separated fields becomes `fmt.Sprintf("%s %-4s %s", fd, typ,
name)` with `fd = fields[3]`, `typ = fields[4]`, and `name` the
space-join of `fields[8:]`; shorter rows yield the empty string. -/
def summarizeLsofLine (line : String) : String :=
  let fields := goFields line
  if fields.length < 9 then ""
  else
    let fd := fields.getD 3 ""
    let typ := fields.getD 4 ""
    let name := goJoinSpace (fields.drop 8)
    fd ++ " " ++ padRight4 typ ++ " " ++ name

/-- Result triple of `collectDarwinFDs` (Go returns
`(int, []string, error)`). -/
structure FDResult where
  count : Nat
  samples : List String
  err : Option String
deriving DecidableEq

/-- Loop body of `collectDarwinFDs`, written as structural recursion over
the output lines with the Go loop state (count, samples, skipHdr)
threaded through. -/
def fdLoop : List String → Nat → List String → Bool → Nat × List String
  | [], count, samples, _ => (count, samples)
  | line :: rest, count, samples, skipHdr =>
    let trimmed := goTrim line
    if trimmed = "" then fdLoop rest count samples skipHdr
    else if skipHdr then fdLoop rest count samples false
    else if samples.length < 10 then
      let s := summarizeLsofLine trimmed
      if s = "" then fdLoop rest (count + 1) samples false
      else fdLoop rest (count + 1) (samples ++ [s]) false
    else fdLoop rest (count + 1) samples false

/-- Embedding of `collectDarwinFDs`: run `lsof -nP -p PID`, skip the
first non-blank line as the header, count every further non-blank line,
and retain at most 10 sample summaries. -/
def collectDarwinFDs (os : DarwinOS) : FDResult :=
  match os.lsofOut with
  | none => { count := 0, samples := [], err := some "lsof: exec failed" }
  | some out =>
    let r := fdLoop (goLines out) 0 [] true
    { count := r.1, samples := r.2, err := none }

/-- Embedding of `parseLaunchctlLimitLine`: second whitespace field is
the soft limit; `unlimited` (case-folded) maps to 0. -/
def parseLaunchctlLimitLine (line : String) : Option Nat :=
  let fields := goFields line
  if fields.length < 2 then none
  else
    let soft := fields.getD 1 ""
    if goEqualFold soft "unlimited" then some 0
    else goParseUint64 soft

/-- Scan of the `launchctl limit maxfiles` output: the first line
containing `maxfiles` that parses successfully wins. -/
def launchctlScan : List String → Option Nat
  | [] => none
  | line :: rest =>
    if goContains line "maxfiles" then
      match parseLaunchctlLimitLine line with
      | some limit => some limit
      | none => launchctlScan rest
    else launchctlScan rest

/-- Embedding of `detectDarwinFileLimit`: launchctl first, `ulimit -n`
as fallback, 0 when neither yields a value. -/
def detectDarwinFileLimit (os : DarwinOS) : Nat :=
  let fromLaunchctl := match os.launchctlOut with
    | some data => launchctlScan (goLines data)
    | none => none
  match fromLaunchctl with
  | some l => l
  | none =>
    match os.ulimitOut with
    | some data =>
      match goParseUint64 (goTrim data) with
      | some l => l
      | none => 0
    | none => 0

/-- Line loop of `listDarwinChildren`: each non-blank line that parses
as an integer is a child PID. -/
def childLoop : List String → List Int
  | [] => []
  | line :: rest =>
    let t := goTrim line
    if t = "" then childLoop rest
    else
      match goAtoi t with
      | some v => v :: childLoop rest
      | none => childLoop rest

/-- Embedding of `listDarwinChildren` (pgrep -P): any error — including
exit code 1, meaning no children — yields the empty list. -/
def listDarwinChildren (os : DarwinOS) : List Int :=
  match os.pgrepOut with
  | .error _ => []
  | .ok out => childLoop (goLines out)

/-- Result record of `ReadExtendedInfo` (Go returns an 8-tuple). -/
structure ExtendedInfo where
  memInfo : MemoryInfo
  ioStats : IOStats
  fileDescs : List String
  fdCount : Nat
  fdLimit : Nat
  children : List Int
  threadCount : Int
  err : Option String

/-- Embedding of `ReadExtendedInfo`: run every sub-sampler; the combined
error is non-nil only when both the memory and the descriptor samplers
failed, in which case the two messages are joined (errors.Join). -/
def ReadExtendedInfo (os : DarwinOS) : ExtendedInfo :=
  let m := readDarwinMemory os
  let f := collectDarwinFDs os
  let fdLimit := detectDarwinFileLimit os
  let children := listDarwinChildren os
  let ioStats : IOStats := {}
  let err := match m.err, f.err with
    | some me, some fe => some (me ++ "\n" ++ fe)
    | _, _ => none
  { memInfo := m.memInfo, ioStats := ioStats, fileDescs := f.samples,
    fdCount := f.count, fdLimit := fdLimit, children := children,
    threadCount := m.threadCount, err := err }

/-! ## Windows backend (GetProcessDetailedInfo and helpers) -/

/-- Embedding of `Win32ProcessInfo`.  `StartedAt` is `time.Time` in Go,
modelled as nanoseconds since the epoch with 0 the zero value. -/
structure Win32ProcessInfo where
  PPID : Nat := 0
  CommandLine : String := ""
  Exe : String := ""
  Cwd : String := ""
  Env : List String := []
  StartedAt : Nat := 0
deriving DecidableEq

/-- One `PROCESSENTRY32` row of the toolhelp snapshot, restricted to the
fields the source reads. -/
structure SnapEntry where
  processID : Nat
  parentProcessID : Nat
  exeFile : String
deriving DecidableEq

/-- Oracle of the Win32 calls `GetProcessDetailedInfo` performs.  Each
field fixes the outcome the corresponding call would produce for the
inspected PID: `openFull`/`openLimited` are the two `OpenProcess`
outcomes, `ntStatus`/`pbiPPID`/`pebBase` the `NtQueryInformationProcess`
result, `readPebOk`/`readParamsOk` the two `ReadProcessMemory` struct
reads, the three strings the `readUnicodeString` results, `imageName`
the `QueryFullProcessImageNameW` result (empty on failure),
`startTimeFull`/`startTimeLimited` the `GetProcessTimes` results on each
handle, and `snapshot` the toolhelp snapshot (`none` when creating or
first-stepping it fails). -/
structure WinAPI where
  openFull : Bool
  openLimited : Bool
  startTimeFull : Nat
  startTimeLimited : Nat
  ntStatus : Nat
  pbiPPID : Nat
  pebBase : Nat
  readPebOk : Bool
  readParamsOk : Bool
  cwdStr : String
  cmdlineStr : String
  exeStr : String
  imageName : String
  snapshot : Option (List SnapEntry)

/-- Embedding of `getInfoFromSnapshot`: linear scan of the system-wide
snapshot for the first entry with the requested PID. -/
def getInfoFromSnapshot (api : WinAPI) (pid : Nat) : Except String (Nat × String) :=
  match api.snapshot with
  | none => .error "failed to create snapshot"
  | some entries =>
    match entries.find? fun e => e.processID == pid with
    | some e => .ok (e.parentProcessID, e.exeFile)
    | none => .error "process not found in snapshot"

/-- Embedding of `getFullProcessInfo`: mutates `info` exactly as the Go
function does through its pointer argument, returning the mutated record
together with the error (if any).  Failure points, in order: non-zero
NTSTATUS, zero PEB base address, failed PEB pointer read, failed
process-parameters read. -/
def getFullProcessInfo (api : WinAPI) (info : Win32ProcessInfo) :
    Win32ProcessInfo × Option String :=
  let info := { info with StartedAt := api.startTimeFull }
  if api.ntStatus ≠ 0 then (info, some "NtQueryInformationProcess failed")
  else
    let info := { info with PPID := api.pbiPPID }
    if api.pebBase = 0 then (info, some "PEB Base Address is 0")
    else if !api.readPebOk then (info, some "failed to read PEB ProcessParameters address")
    else if !api.readParamsOk then (info, some "failed to read ProcessParameters struct")
    else
      ({ info with Cwd := api.cwdStr, CommandLine := api.cmdlineStr,
                   Exe := api.exeStr, Env := [] }, none)

/-- The three privilege tiers of the Windows acquisition. -/
inductive Tier
  | full
  | limited
  | snapshot
deriving DecidableEq

/-- Result of the instrumented Windows acquisition: the process info and
error the Go function returns, plus the ordered list of tiers attempted
(`true` marking the tier that succeeded). -/
structure WinAcqResult where
  info : Win32ProcessInfo
  err : Option String
  trace : List (Tier × Bool)
deriving DecidableEq

/-- Limited-access and snapshot-only tiers of `GetProcessDetailedInfo`
(the code after the full-access attempt): query-limited handle when it
opens, otherwise the snapshot fallback. -/
def limitedAndSnapshotTiers (api : WinAPI) (pid : Nat) (info : Win32ProcessInfo)
    (tr : List (Tier × Bool)) : WinAcqResult :=
  if api.openLimited then
    let info := { info with StartedAt := api.startTimeLimited }
    let exePath := api.imageName
    let info := { info with Exe := exePath }
    let info := if exePath ≠ "" then { info with CommandLine := goWindowsBase exePath } else info
    let ppid := match getInfoFromSnapshot api pid with
      | .ok r => r.1
      | .error _ => 0
    let info := { info with PPID := ppid, Cwd := "", Env := [] }
    { info := info, err := none, trace := tr ++ [(.limited, true)] }
  else
    match getInfoFromSnapshot api pid with
    | .ok r =>
      { info := { info with PPID := r.1, Exe := r.2, CommandLine := r.2 },
        err := none, trace := tr ++ [(.limited, false), (.snapshot, true)] }
    | .error _ =>
      { info := info, err := some "OpenProcess limited denied",
        trace := tr ++ [(.limited, false), (.snapshot, false)] }

/-- Embedding of `GetProcessDetailedInfo`: full-access tier first
(handle with query+VM-read rights, then `getFullProcessInfo`); on any
failure fall through to the limited-access tier, and from a denied
limited open to the snapshot-only tier. -/
def GetProcessDetailedInfo (api : WinAPI) (pid : Nat) : WinAcqResult :=
  let info0 : Win32ProcessInfo := {}
  if api.openFull then
    match getFullProcessInfo api info0 with
    | (info, none) => { info := info, err := none, trace := [(.full, true)] }
    | (info, some _) => limitedAndSnapshotTiers api pid info [(.full, false)]
  else
    limitedAndSnapshotTiers api pid info0 [(.full, false)]

/-! ## Git context detector -/

/-- Filesystem oracle for `detectGitInfo`.  Paths are modelled as lists
of components (the embedding of Go's string paths under `filepath.Join`
appending a component, `filepath.Dir` dropping the last component of a
non-root path, and `filepath.Base` taking the last component; the root
is a one-component path, whose `Dir` is itself).  `isDir p` is the
outcome of `os.Stat(p)` succeeding with `IsDir()`; `readFile p` is the
outcome of `os.ReadFile(p)`. -/
structure FileSys where
  isDir : List String → Bool
  readFile : List String → Option String

/-- Branch extraction from the HEAD file content: trim, strip the
`ref: ` prefix (if absent the branch stays empty), split the ref on `/`
and take the last segment. -/
def gitBranchOfHead (head : String) : String :=
  let headStr := goTrim head
  if goStartsWith headStr "ref: " then
    let ref : String := ⟨headStr.data.drop 5⟩
    ((goSplitChar '/' ref).getLast?).getD ""
  else ""

/-- Loop body of `detectGitInfo`: walk up from the working directory,
at most `fuel` (= 5 in the source) levels, looking for a `.git`
directory; stop early when `filepath.Dir` no longer makes progress. -/
def gitLoop (fs : FileSys) : List String → Nat → String × String
  | _, 0 => ("", "")
  | searchDir, fuel + 1 =>
    let gitDir := searchDir ++ [".git"]
    if fs.isDir gitDir then
      let gitRepo := (searchDir.getLast?).getD ""
      let gitBranch :=
        match fs.readFile (gitDir ++ ["HEAD"]) with
        | some head => gitBranchOfHead head
        | none => ""
      (gitRepo, gitBranch)
    else
      let parent := if searchDir.length ≤ 1 then searchDir else searchDir.dropLast
      if parent = searchDir then ("", "")
      else gitLoop fs parent fuel

/-- Embedding of `detectGitInfo`: empty working directory short-circuits
to empty repo and branch, otherwise walk up at most 5 levels. -/
def detectGitInfo (fs : FileSys) (cwd : List String) : String × String :=
  if cwd = [] then ("", "") else gitLoop fs cwd 5

/-- Declarative description of the upward walk's probes: the directory
in which the walk first finds a `.git` metadata directory within `n`
probes (stopping early at the root, exactly as the loop does), or
`none` when no `.git` directory lies within the walk bound. -/
def gitWalkFind (fs : FileSys) : List String → Nat → Option (List String)
  | _, 0 => none
  | d, n + 1 =>
    if fs.isDir (d ++ [".git"]) then some d
    else if d.length ≤ 1 then none
    else gitWalkFind fs d.dropLast n

/-! ## Container detector -/

/-- Token scan behind `extractFlagValue`: the value is the token
immediately following the first token equal to one of the flags. -/
def extractFlagAux : List String → List String → String
  | [], _ => ""
  | t :: rest, flags =>
    if flags.contains t then
      match rest with
      | v :: _ => v
      | [] => ""
    else extractFlagAux rest flags

/-- Modelled from the spec: `extractFlagValue` is called by
`detectContainer` but its definition is not under src/.  The spec says
"For flag-bearing engines, extract the value following a `--name` flag
(or `-p`/`--profile` for cluster-bootstrap tools) if present, else
report the bare engine name."  We model it as: split the command line
into whitespace-separated tokens and return the token immediately
following the first token equal to one of the given flags, or the empty
string when there is none. -/
def extractFlagValue (cmdline : String) (flags : List String) : String :=
  extractFlagAux (goFields cmdline) flags

/-- Hexadecimal-digit test used by the long-hex-identifier scan. -/
def isHexDigitCh (c : Char) : Bool :=
  c.isDigit || ('a' ≤ c && c ≤ 'f') || ('A' ≤ c && c ≤ 'F')

/-- Maximal runs of hexadecimal characters of a character list. -/
def hexRunsAux : List Char → List Char → List (List Char)
  | [], cur => if cur.isEmpty then [] else [cur.reverse]
  | c :: rest, cur =>
    if isHexDigitCh c then hexRunsAux rest (c :: cur)
    else if cur.isEmpty then hexRunsAux rest [] else cur.reverse :: hexRunsAux rest []

/-- Modelled from the spec: `findLongHexID` is called by
`detectContainer` but its definition is not under src/.  The spec speaks
of "cgroup-style paths containing a long hexadecimal identifier" and its
scenario uses a 64-hex-digit identifier, so we model it as the first
maximal run of at least 64 hexadecimal characters (empty string when
there is none). -/
def findLongHexID (s : String) : String :=
  match (hexRunsAux s.data []).find? fun r => 64 ≤ r.length with
  | some r => ⟨r⟩
  | none => ""

/-- Embedding of `detectContainer`.  `resolve` is the oracle for
`resolveContainerName(id, "crictl")`, an external container-runtime CLI
call not under src/; it returns the resolved name or the empty string on
failure.  The switch matches lower-cased engine markers in source order
and extracts flag values from the original (non-lowered) command line. -/
def detectContainer (resolve : String → String) (cmdline : String) : String :=
  if cmdline = "" then ""
  else
    let lowerCmd := goToLower cmdline
    if goContains lowerCmd "docker" then
      let name := extractFlagValue cmdline ["--name"]
      if name ≠ "" then "docker: " ++ name else "docker"
    else if goContains lowerCmd "podman" then
      let name := extractFlagValue cmdline ["--name"]
      if name ≠ "" then "podman: " ++ name else "podman"
    else if goContains lowerCmd "minikube" then
      let profile := extractFlagValue cmdline ["-p", "--profile"]
      if profile ≠ "" then "k8s: " ++ profile else "kubernetes"
    else if goContains lowerCmd "kind" then
      let name := extractFlagValue cmdline ["--name"]
      if name ≠ "" then "k8s: " ++ name else "kubernetes"
    else if goContains lowerCmd "kubepods" then
      let id := findLongHexID cmdline
      if id ≠ "" then
        let name := resolve id
        if name ≠ "" then "k8s: " ++ name
        else "k8s (" ++ (⟨id.data.take 12⟩ : String) ++ ")"
      else "kubernetes"
    else if goContains lowerCmd "nerdctl" then
      let name := extractFlagValue cmdline ["--name"]
      if name ≠ "" then "containerd: " ++ name else "containerd"
    else if goContains lowerCmd "containerd" then
      let name := extractFlagValue cmdline ["--name"]
      if name ≠ "" then "containerd: " ++ name else "containerd"
    else ""

/-! ## Spec-side description of the descriptor samples (for refinement) -/

/-- Nonblank trimmed lines of a tool output, in order. -/
def nonBlankLines (out : String) : List String :=
  ((goLines out).map goTrim).filter fun l => l != ""

/-- Declarative sample of one lsof line, written from the spec's words
(as amended by the `%-4s` padding): a line with at least 9
whitespace-separated fields yields "field4, a space, field5 left-padded
to a 4-character column, a space, the space-join of fields 9 onward";
shorter lines yield nothing. -/
def specSampleOfLine (l : String) : Option String :=
  let fields := goFields l
  if 9 ≤ fields.length then
    some ((fields.getD 3 "") ++ " " ++ padRight4 (fields.getD 4 "") ++ " " ++
      goJoinSpace (fields.drop 8))
  else none

/-- Declarative description of the retained descriptor samples: skip the
first non-blank line as the header, summarize the remaining lines with
at least 9 fields, and keep at most the first 10 summaries. -/
def specSamples (out : String) : List String :=
  (((nonBlankLines out).tail).filterMap specSampleOfLine).take 10

/-! ## Concrete oracles used by witnesses and counterexamples -/

/-- Windows oracle: both handle opens denied, snapshot lookup succeeds
for PID 5 with parent 4 and image `cmd.exe`. -/
def apiBothDenied : WinAPI :=
  { openFull := false, openLimited := false, startTimeFull := 0,
    startTimeLimited := 0, ntStatus := 0, pbiPPID := 0, pebBase := 0,
    readPebOk := false, readParamsOk := false, cwdStr := "",
    cmdlineStr := "", exeStr := "", imageName := "",
    snapshot := some [⟨5, 4, "cmd.exe"⟩] }

/-- Darwin oracle whose ps output has only 2 fields; every other tool
succeeds with small outputs. -/
def osShortPS : DarwinOS :=
  { psOut := some "12 34",
    lsofOut := some "COMMAND PID USER FD TYPE DEVICE SIZE NODE NAME\nmyproc 5 me 3 VREG 1,4 100 123 /tmp/x\n",
    launchctlOut := some "	maxfiles    256            unlimited",
    ulimitOut := some "1024",
    pgrepOut := .ok "7\n8\n" }

/-- Darwin oracle whose lsof output has a header line and one data row
whose type field (`REG`) is shorter than the 4-column width and whose
target path contains a space. -/
def osLsofPad : DarwinOS :=
  { psOut := some "1 2 3",
    lsofOut := some "COMMAND PID USER FD TYPE DEVICE SIZE NODE NAME\ncmd 1 me 3 REG 1,4 0 77 /a b\n",
    launchctlOut := none, ulimitOut := none, pgrepOut := .error 1 }

/-- Filesystem with a `.git` directory directly at `["r"]` whose HEAD
content does not start with `ref: `. -/
def fsDetached : FileSys :=
  { isDir := fun p => p == ["r", ".git"],
    readFile := fun p =>
      if p == ["r", ".git", "HEAD"] then some "detached-head-garbage" else none }

/-- Filesystem with no directories and no readable files at all. -/
def fsEmpty : FileSys :=
  { isDir := fun _ => false, readFile := fun _ => none }

/-- Filesystem where the working directory `["h","w"]` and its parent
are real directories but no `.git` metadata directory exists anywhere. -/
def fsNoGit : FileSys :=
  { isDir := fun p => p == ["h"] || p == ["h", "w"],
    readFile := fun _ => none }

/-- Filesystem with a `.git` directory one level above the working
directory `["h","w"]`, whose HEAD content does not start with `ref: `. -/
def fsDeepDetached : FileSys :=
  { isDir := fun p => p == ["h", ".git"],
    readFile := fun p =>
      if p == ["h", ".git", "HEAD"] then some "gobbledygook" else none }

/-- Filesystem with a repository root at `["home","user","repo"]` whose
HEAD points at `refs/heads/feature/foo`. -/
def fsRepo : FileSys :=
  { isDir := fun p => p == ["home", "user", "repo", ".git"],
    readFile := fun p =>
      if p == ["home", "user", "repo", ".git", "HEAD"] then
        some "ref: refs/heads/feature/foo"
      else none }

/-! ## Helper lemmas about the Windows tier machine -/

/-- Trace of the limited/snapshot phase: limited succeeds whenever its
handle opens; otherwise the snapshot tier is attempted and its outcome
is that of the snapshot lookup. -/
theorem limitedAndSnapshotTiers_trace (api : WinAPI) (pid : Nat)
    (info : Win32ProcessInfo) (tr : List (Tier × Bool)) :
    (limitedAndSnapshotTiers api pid info tr).trace =
      if api.openLimited then tr ++ [(Tier.limited, true)]
      else
        match getInfoFromSnapshot api pid with
        | .ok _ => tr ++ [(Tier.limited, false), (Tier.snapshot, true)]
        | .error _ => tr ++ [(Tier.limited, false), (Tier.snapshot, false)] := by
  unfold limitedAndSnapshotTiers
  by_cases hL : api.openLimited = true
  · simp [hL]
  · cases hs : getInfoFromSnapshot api pid <;> simp [hL, hs]

/-- Success condition of the full-access information read: it returns no
error exactly when the NTSTATUS is zero, the PEB base address is
non-zero and both remote memory reads succeed. -/
theorem getFullProcessInfo_err_none_iff (api : WinAPI) (info : Win32ProcessInfo) :
    (getFullProcessInfo api info).2 = none ↔
      (api.ntStatus = 0 ∧ api.pebBase ≠ 0 ∧ api.readPebOk = true ∧
       api.readParamsOk = true) := by
  unfold getFullProcessInfo
  by_cases hnt : api.ntStatus = 0 <;>
    by_cases hpeb : api.pebBase = 0 <;>
      cases hrp : api.readPebOk <;> cases hrr : api.readParamsOk <;>
        simp [hnt, hpeb]

/-- Trace of the whole acquisition as a function of the oracle. -/
theorem winTrace_eq (api : WinAPI) (pid : Nat) :
    (GetProcessDetailedInfo api pid).trace =
      if api.openFull = true ∧ api.ntStatus = 0 ∧ api.pebBase ≠ 0 ∧
         api.readPebOk = true ∧ api.readParamsOk = true then
        [(Tier.full, true)]
      else if api.openLimited then
        [(Tier.full, false), (Tier.limited, true)]
      else
        match getInfoFromSnapshot api pid with
        | .ok _ => [(Tier.full, false), (Tier.limited, false), (Tier.snapshot, true)]
        | .error _ => [(Tier.full, false), (Tier.limited, false), (Tier.snapshot, false)] := by
  unfold GetProcessDetailedInfo
  by_cases hF : api.openFull = true
  · rcases hfull : getFullProcessInfo api {} with ⟨info1, err1⟩
    cases err1 with
    | none =>
      have hok := (getFullProcessInfo_err_none_iff api {}).mp (by rw [hfull])
      simp [hF, hfull, hok]
    | some e =>
      have hne : ¬ (api.ntStatus = 0 ∧ api.pebBase ≠ 0 ∧ api.readPebOk = true ∧
          api.readParamsOk = true) := by
        intro hc
        have := (getFullProcessInfo_err_none_iff api {}).mpr hc
        rw [hfull] at this
        simp at this
      simp [hF, hfull, hne, limitedAndSnapshotTiers_trace]
  · have : api.openFull = false := by
      cases h : api.openFull
      · rfl
      · exact absurd h hF
    simp [this, limitedAndSnapshotTiers_trace]

/-- The environment list survives the full-tier read untouched on every
failure path and is set to the explicit empty list on success. -/
theorem getFullProcessInfo_env (api : WinAPI) (info : Win32ProcessInfo)
    (h : info.Env = []) : ((getFullProcessInfo api info).1).Env = [] := by
  unfold getFullProcessInfo
  split_ifs <;> simp [h]

/-- The limited and snapshot tiers never populate the environment. -/
theorem limitedAndSnapshotTiers_env (api : WinAPI) (pid : Nat)
    (info : Win32ProcessInfo) (tr : List (Tier × Bool)) (h : info.Env = []) :
    (limitedAndSnapshotTiers api pid info tr).info.Env = [] := by
  unfold limitedAndSnapshotTiers
  by_cases hL : api.openLimited = true
  · simp [hL]
  · cases hs : getInfoFromSnapshot api pid <;> simp [hL, hs, h]

/-! ## Claims about the Windows backend -/

/-- C1: for every PID (and every outcome of the Win32 calls), the
limited-access tier is attempted exactly when the full-access tier
failed (handle open denied, non-zero NTSTATUS, zero PEB base address, or
either remote read failing), the snapshot-only tier is attempted exactly
when additionally the limited-access handle open was denied, and the
attempted tiers always form one of the four monotonic traces in which
only the last attempted tier can have succeeded. -/
theorem GetProcessDetailedInfo_tier_monotonic (api : WinAPI) (pid : Nat) :
    ((Tier.limited ∈ (GetProcessDetailedInfo api pid).trace.map Prod.fst) ↔
      (api.openFull = false ∨ api.ntStatus ≠ 0 ∨ api.pebBase = 0 ∨
       api.readPebOk = false ∨ api.readParamsOk = false)) ∧
    ((Tier.snapshot ∈ (GetProcessDetailedInfo api pid).trace.map Prod.fst) ↔
      ((api.openFull = false ∨ api.ntStatus ≠ 0 ∨ api.pebBase = 0 ∨
        api.readPebOk = false ∨ api.readParamsOk = false) ∧
       api.openLimited = false)) ∧
    ((GetProcessDetailedInfo api pid).trace = [(Tier.full, true)] ∨
     (GetProcessDetailedInfo api pid).trace =
       [(Tier.full, false), (Tier.limited, true)] ∨
     (GetProcessDetailedInfo api pid).trace =
       [(Tier.full, false), (Tier.limited, false), (Tier.snapshot, true)] ∨
     (GetProcessDetailedInfo api pid).trace =
       [(Tier.full, false), (Tier.limited, false), (Tier.snapshot, false)]) := by
  rw [winTrace_eq]
  by_cases hF : api.openFull = true <;>
    by_cases hnt : api.ntStatus = 0 <;>
      by_cases hpeb : api.pebBase = 0 <;>
        cases hrp : api.readPebOk <;>
          cases hrr : api.readParamsOk <;>
            cases hL : api.openLimited <;>
              cases hs : getInfoFromSnapshot api pid <;>
                simp [hF, hnt, hpeb, hL, hs, Bool.not_eq_true] at *

/-- C10: on the Windows backend the environment field is never
populated: whatever the oracle outcomes, the returned `Env` is the empty
sequence. -/
theorem GetProcessDetailedInfo_env_always_empty (api : WinAPI) (pid : Nat) :
    (GetProcessDetailedInfo api pid).info.Env = [] := by
  unfold GetProcessDetailedInfo
  by_cases hF : api.openFull = true
  · have henv : ((getFullProcessInfo api ({} : Win32ProcessInfo)).1).Env = [] :=
      getFullProcessInfo_env api {} rfl
    rcases hfull : getFullProcessInfo api ({} : Win32ProcessInfo) with ⟨info1, err1⟩
    rw [hfull] at henv
    cases err1 with
    | none =>
      simp only [hF, if_true, hfull]
      simpa using henv
    | some e =>
      simp only [hF, if_true, hfull]
      exact limitedAndSnapshotTiers_env api pid info1 _ henv
  · have hf : api.openFull = false := by
      cases h : api.openFull
      · rfl
      · exact absurd h hF
    simp only [hf, Bool.false_eq_true, if_false]
    exact limitedAndSnapshotTiers_env api pid {} _ rfl

/-- C2 counterexample: with both handle opens denied and the snapshot
lookup succeeding (parent 4, image `cmd.exe`), the returned command line
is `cmd.exe`, not the zero value: the snapshot tier copies the image
filename into the command-line field. -/
theorem GetProcessDetailedInfo_snapshot_commandline_populated :
    (GetProcessDetailedInfo apiBothDenied 5).info.CommandLine = "cmd.exe" ∧
    ("cmd.exe" : String) ≠ "" := by
  constructor
  · rfl
  · decide

/-- C2 amended: when both handle opens are denied and the snapshot
lookup succeeds, the result carries the parent PID, the image filename,
and the command line set to that same image filename; working directory,
environment and start time remain at their zero values, and no error is
returned. -/
theorem GetProcessDetailedInfo_snapshot_tier_fields (api : WinAPI)
    (pid ppid : Nat) (exe : String)
    (hF : api.openFull = false) (hL : api.openLimited = false)
    (hS : getInfoFromSnapshot api pid = .ok (ppid, exe)) :
    (GetProcessDetailedInfo api pid).info =
      { PPID := ppid, Exe := exe, CommandLine := exe, Cwd := "", Env := [],
        StartedAt := 0 } ∧
    (GetProcessDetailedInfo api pid).err = none := by
  unfold GetProcessDetailedInfo limitedAndSnapshotTiers
  simp [hF, hL, hS]

/-- Closed instance of the amended C2 statement at the concrete oracle
`apiBothDenied`. -/
theorem GetProcessDetailedInfo_snapshot_tier_fields_witness :
    (GetProcessDetailedInfo apiBothDenied 5).info =
      { PPID := 4, Exe := "cmd.exe", CommandLine := "cmd.exe", Cwd := "",
        Env := [], StartedAt := 0 } ∧
    (GetProcessDetailedInfo apiBothDenied 5).err = none :=
  GetProcessDetailedInfo_snapshot_tier_fields apiBothDenied 5 4 "cmd.exe"
    rfl rfl rfl

/-! ## Claims about the container detector -/

/-- C4: the command line `/usr/bin/dockerd --name mycontainer` is
classified as `docker: mycontainer`, whatever the container-runtime
resolution oracle does. -/
theorem detectContainer_dockerd_named (resolve : String → String) :
    detectContainer resolve "/usr/bin/dockerd --name mycontainer" =
      "docker: mycontainer" := rfl

/-- C9: engine-marker matching is case-insensitive over the command
line: `DOCKER --name=X` and `docker --name=X` receive the same
classification, whatever the resolution oracle does. -/
theorem detectContainer_case_insensitive (resolve : String → String) :
    detectContainer resolve "DOCKER --name=X" =
      detectContainer resolve "docker --name=X" := rfl

/-! ## Claims about the darwin resource sampler -/

/-- C3: when the ps output has fewer than 3 whitespace-separated fields,
the memory info stays at its zero value, the thread count is zero, and
exactly one failure value (the missing-fields parse error) is produced
for the memory fact group; descriptor sampling, file-limit detection and
children enumeration still run and their results are still the ones
returned by `ReadExtendedInfo`. -/
theorem readDarwinMemory_short_output (os : DarwinOS) (out : String)
    (hps : os.psOut = some out)
    (hshort : (goFields (goTrim out)).length < 3) :
    (readDarwinMemory os).memInfo = {} ∧
    (readDarwinMemory os).threadCount = 0 ∧
    (readDarwinMemory os).err =
      some ("ps rss/vsz output missing fields: " ++ goTrim out) ∧
    (ReadExtendedInfo os).memInfo = {} ∧
    (ReadExtendedInfo os).threadCount = 0 ∧
    (ReadExtendedInfo os).fileDescs = (collectDarwinFDs os).samples ∧
    (ReadExtendedInfo os).fdCount = (collectDarwinFDs os).count ∧
    (ReadExtendedInfo os).fdLimit = detectDarwinFileLimit os ∧
    (ReadExtendedInfo os).children = listDarwinChildren os := by
  have hm : readDarwinMemory os =
      { memInfo := {}, threadCount := 0,
        err := some ("ps rss/vsz output missing fields: " ++ goTrim out) } := by
    unfold readDarwinMemory
    rw [hps]
    simp [hshort]
  refine ⟨by rw [hm], by rw [hm], by rw [hm], ?_, ?_, rfl, rfl, rfl, rfl⟩
  · show (readDarwinMemory os).memInfo = {}
    rw [hm]
  · show (readDarwinMemory os).threadCount = 0
    rw [hm]

/-- Closed instance of C3 at the concrete oracle `osShortPS`, whose ps
output is `12 34`. -/
theorem readDarwinMemory_short_output_witness :
    (readDarwinMemory osShortPS).memInfo = {} ∧
    (readDarwinMemory osShortPS).threadCount = 0 ∧
    (readDarwinMemory osShortPS).err =
      some ("ps rss/vsz output missing fields: " ++ goTrim "12 34") ∧
    (ReadExtendedInfo osShortPS).memInfo = {} ∧
    (ReadExtendedInfo osShortPS).threadCount = 0 ∧
    (ReadExtendedInfo osShortPS).fileDescs = (collectDarwinFDs osShortPS).samples ∧
    (ReadExtendedInfo osShortPS).fdCount = (collectDarwinFDs osShortPS).count ∧
    (ReadExtendedInfo osShortPS).fdLimit = detectDarwinFileLimit osShortPS ∧
    (ReadExtendedInfo osShortPS).children = listDarwinChildren osShortPS :=
  readDarwinMemory_short_output osShortPS "12 34" rfl (by decide)

/-- Summaries of long-enough lines spelled out. -/
theorem summarizeLsofLine_eq_spec (l : String)
    (h : 9 ≤ (goFields l).length) :
    summarizeLsofLine l =
      (goFields l).getD 3 "" ++ " " ++ padRight4 ((goFields l).getD 4 "") ++
        " " ++ goJoinSpace ((goFields l).drop 8) := by
  unfold summarizeLsofLine
  rw [if_neg (by omega)]

/-- Short lines yield the empty summary. -/
theorem summarizeLsofLine_short (l : String)
    (h : (goFields l).length < 9) : summarizeLsofLine l = "" := by
  unfold summarizeLsofLine
  rw [if_pos h]

/-- A summary of a long-enough line is never the empty string (it
contains at least the two separator spaces). -/
theorem summarizeLsofLine_ne_empty (l : String)
    (h : 9 ≤ (goFields l).length) : summarizeLsofLine l ≠ "" := by
  rw [summarizeLsofLine_eq_spec l h]
  intro hc
  have hlen := congrArg String.length hc
  simp [String.length_append] at hlen
  exact absurd hlen.1.1.1.2 (by decide)

/-- Samples accumulated by the loop after the header has been consumed:
the declarative summaries of the remaining non-blank lines, cut to the
remaining capacity. -/
theorem fdLoop_samples_spec (lines : List String) :
    ∀ (count : Nat) (samples : List String),
      (fdLoop lines count samples false).2 =
        samples ++
          (((lines.map goTrim).filter fun l => l != "").filterMap
            specSampleOfLine).take (10 - samples.length) := by
  induction lines with
  | nil => intro c s; simp [fdLoop]
  | cons line rest ih =>
    intro c s
    by_cases ht : goTrim line = ""
    · rw [fdLoop]
      simp only [ht, if_true, reduceIte]
      rw [ih c s]
      simp [ht]
    · by_cases hcap : s.length < 10
      · by_cases hlong : 9 ≤ (goFields (goTrim line)).length
        · have hne := summarizeLsofLine_ne_empty (goTrim line) hlong
          rw [fdLoop]
          simp only [ht, reduceIte, Bool.false_eq_true, if_false, hcap, hne]
          rw [ih (c + 1) (s ++ [summarizeLsofLine (goTrim line)])]
          have hfilter : ((line :: rest).map goTrim).filter (fun l => l != "") =
              goTrim line :: ((rest.map goTrim).filter fun l => l != "") := by
            simp [ht]
          rw [hfilter]
          have hspec : specSampleOfLine (goTrim line) =
              some (summarizeLsofLine (goTrim line)) := by
            unfold specSampleOfLine
            rw [if_pos hlong, summarizeLsofLine_eq_spec _ hlong]
          rw [List.filterMap_cons, hspec]
          have hkm : 10 - s.length = (10 - (s.length + 1)) + 1 := by omega
          rw [hkm, List.take_succ_cons]
          simp [List.length_append]
        · have hempty := summarizeLsofLine_short (goTrim line) (by omega)
          rw [fdLoop]
          simp only [ht, reduceIte, Bool.false_eq_true, if_false, hcap, hempty]
          rw [ih (c + 1) s]
          have hfilter : ((line :: rest).map goTrim).filter (fun l => l != "") =
              goTrim line :: ((rest.map goTrim).filter fun l => l != "") := by
            simp [ht]
          rw [hfilter]
          have hspec : specSampleOfLine (goTrim line) = none := by
            unfold specSampleOfLine
            rw [if_neg (by omega)]
          rw [List.filterMap_cons, hspec]
      · rw [fdLoop]
        simp only [ht, reduceIte, Bool.false_eq_true, if_false, hcap]
        rw [ih (c + 1) s]
        have hz : 10 - s.length = 0 := by omega
        simp [hz]

/-- Samples accumulated by the loop in header mode: the first non-blank
line is discarded and the rest proceeds as above. -/
theorem fdLoop_header_spec (lines : List String) :
    ∀ (count : Nat) (samples : List String),
      (fdLoop lines count samples true).2 =
        samples ++
          ((((lines.map goTrim).filter fun l => l != "").tail).filterMap
            specSampleOfLine).take (10 - samples.length) := by
  induction lines with
  | nil => intro c s; simp [fdLoop]
  | cons line rest ih =>
    intro c s
    by_cases ht : goTrim line = ""
    · rw [fdLoop]
      simp only [ht, if_true, reduceIte]
      rw [ih c s]
      simp [ht]
    · rw [fdLoop]
      simp only [ht, reduceIte]
      rw [fdLoop_samples_spec rest c s]
      have hfilter : ((line :: rest).map goTrim).filter (fun l => l != "") =
          goTrim line :: ((rest.map goTrim).filter fun l => l != "") := by
        simp [ht]
      rw [hfilter, List.tail_cons]

/-- C7 counterexample: on `osLsofPad` the only retained sample is
`3 REG  /a b` — the type column is padded to 4 characters, so the sample
is not the single-space form `3 REG /a b` the claim states (the target
`/a b`, containing a space, is kept whole). -/
theorem collectDarwinFDs_sample_padded :
    (collectDarwinFDs osLsofPad).samples = ["3 REG  /a b"] ∧
    (["3 REG  /a b"] : List String) ≠ ["3 REG /a b"] := by
  constructor
  · rfl
  · decide

/-- C7 amended: for every lsof output, the retained samples are exactly
the declarative `specSamples`: the first non-blank line is skipped as a
header, and each line with at least 9 whitespace-separated fields
contributes "field4, space, field5 left-justified in a 4-character
column, space, join of fields 9 onward" — so a target path containing
spaces is kept whole. -/
theorem collectDarwinFDs_samples_spec (os : DarwinOS) (out : String)
    (h : os.lsofOut = some out) :
    (collectDarwinFDs os).samples = specSamples out := by
  unfold collectDarwinFDs
  rw [h]
  show (fdLoop (goLines out) 0 [] true).2 = specSamples out
  rw [fdLoop_header_spec (goLines out) 0 []]
  simp [specSamples, nonBlankLines]

/-- Closed instance of the amended C7 statement at the concrete oracle
`osLsofPad`. -/
theorem collectDarwinFDs_samples_spec_witness :
    (collectDarwinFDs osLsofPad).samples =
      specSamples
        "COMMAND PID USER FD TYPE DEVICE SIZE NODE NAME\ncmd 1 me 3 REG 1,4 0 77 /a b\n" :=
  collectDarwinFDs_samples_spec osLsofPad _ rfl

/-- The loop never grows the sample list beyond 10 entries. -/
theorem fdLoop_length (lines : List String) :
    ∀ (count : Nat) (samples : List String) (hdr : Bool),
      samples.length ≤ 10 → ((fdLoop lines count samples hdr).2).length ≤ 10 := by
  induction lines with
  | nil => intro c s hdr h; simpa [fdLoop] using h
  | cons line rest ih =>
    intro c s hdr h
    rw [fdLoop]
    by_cases ht : goTrim line = ""
    · simp only [ht, reduceIte]
      exact ih c s hdr h
    · simp only [ht, reduceIte]
      by_cases hhdr : hdr = true
      · simp only [hhdr, reduceIte]
        exact ih c s false h
      · have : hdr = false := by
          cases hdr
          · rfl
          · exact absurd rfl hhdr
        simp only [this, Bool.false_eq_true, reduceIte]
        by_cases hcap : s.length < 10
        · simp only [hcap, reduceIte]
          by_cases hemp : summarizeLsofLine (goTrim line) = ""
          · simp only [hemp, reduceIte]
            exact ih (c + 1) s false h
          · simp only [hemp, reduceIte]
            refine ih (c + 1) (s ++ [summarizeLsofLine (goTrim line)]) false ?_
            simp only [List.length_append, List.length_singleton]
            omega
        · simp only [hcap, reduceIte]
          exact ih (c + 1) s false h

/-- C8: the descriptor sample list returned by `collectDarwinFDs` never
has more than 10 entries, whatever the lsof output (and hence whatever
the total descriptor count). -/
theorem collectDarwinFDs_sample_bound (os : DarwinOS) :
    (collectDarwinFDs os).samples.length ≤ 10 := by
  unfold collectDarwinFDs
  cases h : os.lsofOut with
  | none => simp
  | some out =>
    simpa using fdLoop_length (goLines out) 0 [] true (by simp)

/-! ## Helper lemmas about the git walk -/

/-- One found step of the walk: a `.git` directory at the current level
returns the base name of the current directory and the branch parsed
from HEAD. -/
theorem gitLoop_found (fs : FileSys) (d : List String) (n : Nat)
    (h : fs.isDir (d ++ [".git"]) = true) :
    gitLoop fs d (n + 1) =
      ((d.getLast?).getD "",
        match fs.readFile (d ++ [".git", "HEAD"]) with
        | some head => gitBranchOfHead head
        | none => "") := by
  rw [gitLoop]
  simp [h]

/-- One missed step of the walk: no `.git` directory here and at least
two path components left means the walk continues in the parent. -/
theorem gitLoop_step (fs : FileSys) (d : List String) (n : Nat)
    (h : fs.isDir (d ++ [".git"]) = false) (hlen : 1 < d.length) :
    gitLoop fs d (n + 1) = gitLoop fs d.dropLast n := by
  have hne : d.dropLast ≠ d := by
    intro he
    have := congrArg List.length he
    rw [List.length_dropLast] at this
    omega
  rw [gitLoop]
  simp only [h, Bool.false_eq_true, if_false]
  rw [if_neg (by omega : ¬ d.length ≤ 1)]
  rw [if_neg hne]

/-- When the walk finds no `.git` directory within its bound, the loop
returns empty repo and branch. -/
theorem gitLoop_of_walkFind_none (fs : FileSys) :
    ∀ (n : Nat) (d : List String),
      gitWalkFind fs d n = none → gitLoop fs d n = ("", "") := by
  intro n
  induction n with
  | zero => intro d _; rfl
  | succ n ih =>
    intro d h
    rw [gitWalkFind] at h
    by_cases hdir : fs.isDir (d ++ [".git"]) = true
    · rw [if_pos hdir] at h
      exact absurd h (by simp)
    · have hdirf : fs.isDir (d ++ [".git"]) = false := by
        cases hv : fs.isDir (d ++ [".git"])
        · rfl
        · exact absurd hv hdir
      rw [if_neg hdir] at h
      rw [gitLoop]
      simp only [hdirf, Bool.false_eq_true, if_false]
      by_cases hlen : d.length ≤ 1
      · rw [if_pos hlen]
        simp
      · rw [if_neg hlen] at h
        have hne : d.dropLast ≠ d := by
          intro he
          have := congrArg List.length he
          rw [List.length_dropLast] at this
          omega
        rw [if_neg hlen, if_neg hne]
        exact ih _ h

/-- When the walk finds a `.git` directory whose HEAD content does not
carry the `ref: ` prefix, the loop returns the base name of the
directory containing the `.git` directory and an empty branch. -/
theorem gitLoop_of_walkFind_malformed (fs : FileSys) (content : String)
    (hmal : goStartsWith (goTrim content) "ref: " = false) :
    ∀ (n : Nat) (d dfound : List String),
      gitWalkFind fs d n = some dfound →
      fs.readFile (dfound ++ [".git", "HEAD"]) = some content →
      gitLoop fs d n = ((dfound.getLast?).getD "", "") := by
  intro n
  induction n with
  | zero =>
    intro d dfound h _
    exact absurd h (by simp [gitWalkFind])
  | succ n ih =>
    intro d dfound h hread
    rw [gitWalkFind] at h
    by_cases hdir : fs.isDir (d ++ [".git"]) = true
    · rw [if_pos hdir] at h
      have hd : d = dfound := by simpa using h
      subst hd
      rw [gitLoop_found fs d n hdir, hread]
      have hb : gitBranchOfHead content = "" := by
        unfold gitBranchOfHead
        rw [if_neg (by simp [hmal])]
      simp [hb]
    · have hdirf : fs.isDir (d ++ [".git"]) = false := by
        cases hv : fs.isDir (d ++ [".git"])
        · rfl
        · exact absurd hv hdir
      rw [if_neg hdir] at h
      by_cases hlen : d.length ≤ 1
      · rw [if_pos hlen] at h
        exact absurd h (by simp)
      · rw [if_neg hlen] at h
        have hne : d.dropLast ≠ d := by
          intro he
          have := congrArg List.length he
          rw [List.length_dropLast] at this
          omega
        rw [gitLoop]
        simp only [hdirf, Bool.false_eq_true, if_false]
        rw [if_neg hlen, if_neg hne]
        exact ih d.dropLast dfound h hread

/-! ## Claims about the git context detector -/

/-- C5: for a working directory two levels below a repository root
(which is itself at least one component long, so the root is reached
within the 5-level walk bound) whose `.git/HEAD` reads
`ref: refs/heads/feature/foo`, the detector returns the root's base name
as the repository and `foo` as the branch. -/
theorem detectGitInfo_two_levels_below_root (fs : FileSys)
    (r : List String) (x y : String)
    (hr : r ≠ [])
    (h0 : fs.isDir (r ++ [x, y, ".git"]) = false)
    (h1 : fs.isDir (r ++ [x, ".git"]) = false)
    (h2 : fs.isDir (r ++ [".git"]) = true)
    (hh : fs.readFile (r ++ [".git", "HEAD"]) =
      some "ref: refs/heads/feature/foo") :
    detectGitInfo fs (r ++ [x, y]) = ((r.getLast?).getD "", "foo") := by
  have hrlen : 0 < r.length := List.length_pos.mpr hr
  unfold detectGitInfo
  rw [if_neg (by simp)]
  have e2 : (r ++ [x, y]).dropLast = r ++ [x] := by
    have : r ++ [x, y] = (r ++ [x]) ++ [y] := by simp
    rw [this, List.dropLast_concat]
  have e1 : (r ++ [x]).dropLast = r := List.dropLast_concat
  rw [show (5 : Nat) = 4 + 1 from rfl,
    gitLoop_step fs (r ++ [x, y]) 4 (by simpa using h0)
      (by simp only [List.length_append, List.length_cons, List.length_nil]; omega), e2]
  rw [show (4 : Nat) = 3 + 1 from rfl,
    gitLoop_step fs (r ++ [x]) 3 (by simpa using h1)
      (by simp only [List.length_append, List.length_cons, List.length_nil]; omega), e1]
  rw [show (3 : Nat) = 2 + 1 from rfl, gitLoop_found fs r 2 h2, hh]
  constructor

/-- Closed instance of C5 at the concrete filesystem `fsRepo`, with the
root `["home","user","repo"]` and working directory two levels below. -/
theorem detectGitInfo_two_levels_below_root_witness :
    detectGitInfo fsRepo (["home", "user", "repo"] ++ ["a", "b"]) =
      (((["home", "user", "repo"] : List String).getLast?).getD "", "foo") :=
  detectGitInfo_two_levels_below_root fsRepo ["home", "user", "repo"] "a" "b"
    (by decide) (by decide) (by decide) (by decide) (by decide)

/-- C6 counterexample: on `fsDetached` — a `.git` directory at `["r"]`
whose HEAD does not carry the `ref: ` prefix — the detector returns the
repository name `r`, which is not empty: malformed HEAD content does not
degrade the repository name to the empty string. -/
theorem detectGitInfo_malformed_head_nonempty_repo :
    detectGitInfo fsDetached ["r"] = ("r", "") ∧ ("r" : String) ≠ "" := by
  constructor
  · rfl
  · decide

/-- C6 amended: the detector is a total function (it can signal no
error), and it degrades silently: an empty working directory yields
empty repo and branch; so does the absence of a `.git` metadata
directory within the 5-level upward walk (the walk's probes coming back
`none`); and when the walk does find a `.git` directory — at any walked
level — whose HEAD content does not carry the `ref: ` prefix, only the
branch degrades to empty, while the repository name is still the
containing directory's base name. -/
theorem detectGitInfo_silent_degradation :
    (∀ fs : FileSys, detectGitInfo fs [] = ("", "")) ∧
    (∀ (fs : FileSys) (cwd : List String),
      gitWalkFind fs cwd 5 = none → detectGitInfo fs cwd = ("", "")) ∧
    (∀ (fs : FileSys) (cwd d : List String) (content : String),
      gitWalkFind fs cwd 5 = some d →
      fs.readFile (d ++ [".git", "HEAD"]) = some content →
      goStartsWith (goTrim content) "ref: " = false →
      detectGitInfo fs cwd = ((d.getLast?).getD "", "")) := by
  refine ⟨fun fs => rfl, fun fs cwd h => ?_,
    fun fs cwd d content hfind hread hmal => ?_⟩
  · unfold detectGitInfo
    split
    · rfl
    · exact gitLoop_of_walkFind_none fs 5 cwd h
  · by_cases hcwd : cwd = []
    · subst hcwd
      have hd : d = [] := by
        rw [gitWalkFind] at hfind
        by_cases hdir : fs.isDir ([] ++ [".git"]) = true
        · rw [if_pos hdir] at hfind
          simpa using hfind.symm
        · rw [if_neg hdir, if_pos (by simp)] at hfind
          exact absurd hfind (by simp)
      subst hd
      rfl
    · unfold detectGitInfo
      rw [if_neg hcwd]
      exact gitLoop_of_walkFind_malformed fs content hmal 5 cwd d hfind hread

/-- Closed instance of the amended C6 statement: each degradation case
at a concrete filesystem — in the last one the working directory
`["h","w"]` is a real directory and the `.git` directory with the
malformed HEAD is found one level above it. -/
theorem detectGitInfo_silent_degradation_witness :
    detectGitInfo fsEmpty [] = ("", "") ∧
    detectGitInfo fsNoGit ["h", "w"] = ("", "") ∧
    detectGitInfo fsDeepDetached ["h", "w"] =
      (((["h"] : List String).getLast?).getD "", "") :=
  ⟨detectGitInfo_silent_degradation.1 fsEmpty,
   detectGitInfo_silent_degradation.2.1 fsNoGit ["h", "w"] (by decide),
   detectGitInfo_silent_degradation.2.2 fsDeepDetached ["h", "w"] ["h"]
     "gobbledygook" (by decide) (by decide) (by decide)⟩

end Witr
